import Mathlib

/-!
# Verification of the coldDrawer atomic-swap core against its specification

Shallow embedding of the coldDrawer repository's swap core:
* `packages/shared/src/utils/crypto.ts` (hash / preimage primitives),
* `contracts/src/AssetRegistry.sol` (asset HTLC module),
* `services/watcher/src/BitcoinWatcher.ts`, `HTLCDetector.ts`,
  `utils/htlc.ts`, `utils/bitcoin.ts` (Bitcoin observer / coordinator),
* the watcher's EVM bridge (`EVMBridge.ts`).

Bytes are `Nat < 256`, machine words are `Nat` reduced mod `2^32`,
amounts are `Int` satoshis, BTC-denominated API values are `Rat`,
fallible operations return `Except` or `Option`.
-/

set_option maxRecDepth 100000
set_option maxHeartbeats 1000000

namespace ColdDrawer

/-! ## SHA-256 (FIPS 180-4), executable over byte lists -/

/-- Truncate to a 32-bit word. -/
def w32 (n : Nat) : Nat := n % 4294967296

/-- Rotate a 32-bit word right by `n` positions. -/
def rotr (n x : Nat) : Nat := w32 ((x >>> n) ||| (x <<< (32 - n)))

/-- Bitwise complement of a 32-bit word. -/
def wnot (x : Nat) : Nat := x ^^^ 4294967295

def bigSigma0 (x : Nat) : Nat := (rotr 2 x) ^^^ (rotr 13 x) ^^^ (rotr 22 x)
def bigSigma1 (x : Nat) : Nat := (rotr 6 x) ^^^ (rotr 11 x) ^^^ (rotr 25 x)
def smallSigma0 (x : Nat) : Nat := (rotr 7 x) ^^^ (rotr 18 x) ^^^ (x >>> 3)
def smallSigma1 (x : Nat) : Nat := (rotr 17 x) ^^^ (rotr 19 x) ^^^ (x >>> 10)

/-- The 64 round constants of FIPS 180-4 §4.2.2 (fractional parts of cube
roots of the first 64 primes), written in decimal. -/
def sha256K : List Nat :=
  [1116352408, 1899447441, 3049323471, 3921009573, 961987163, 1508970993,
   2453635748, 2870763221, 3624381080, 310598401, 607225278, 1426881987,
   1925078388, 2162078206, 2614888103, 3248222580, 3835390401, 4022224774,
   264347078, 604807628, 770255983, 1249150122, 1555081692, 1996064986,
   2554220882, 2821834349, 2952996808, 3210313671, 3336571891, 3584528711,
   113926993, 338241895, 666307205, 773529912, 1294757372, 1396182291,
   1695183700, 1986661051, 2177026350, 2456956037, 2730485921, 2820302411,
   3259730800, 3345764771, 3516065817, 3600352804, 4094571909, 275423344,
   430227734, 506948616, 659060556, 883997877, 958139571, 1322822218,
   1537002063, 1747873779, 1955562222, 2024104815, 2227730452, 2361852424,
   2428436474, 2756734187, 3204031479, 3329325298]

/-- The initial chaining state of FIPS 180-4 §5.3.3, in decimal. -/
def sha256H0 : List Nat :=
  [1779033703, 3144134277, 1013904242, 2773480762,
   1359893119, 2600822924, 528734635, 1541459225]

/-- Big-endian encoding of a number into `k` bytes. -/
def beBytes : Nat → Nat → List Nat
  | 0, _ => []
  | k + 1, n => beBytes k (n / 256) ++ [n % 256]

/-- SHA-256 padding: append `0x80`, zeros, and the 64-bit big-endian bit length. -/
def sha256Pad (msg : List Nat) : List Nat :=
  let z := (119 - msg.length % 64) % 64
  msg ++ [0x80] ++ List.replicate z 0 ++ beBytes 8 (msg.length * 8)

/-- Group bytes into big-endian 32-bit words (four bytes per word). -/
def bytesToWords : List Nat → List Nat
  | a :: b :: c :: d :: rest => (a * 16777216 + b * 65536 + c * 256 + d) :: bytesToWords rest
  | _ => []

/-- Split a byte list into 64-byte blocks (fuel-driven so the kernel can
evaluate it; the fuel `bs.length` always suffices). -/
def chunk64Go : Nat → List Nat → List (List Nat)
  | 0, _ => []
  | _, [] => []
  | fuel + 1, bs => bs.take 64 :: chunk64Go fuel (bs.drop 64)

/-- Split a byte list into 64-byte blocks. -/
def chunk64 (bs : List Nat) : List (List Nat) := chunk64Go bs.length bs

/-- Extend a 16-word block schedule by `n` further words. -/
def extendSchedule (ws : List Nat) : Nat → List Nat
  | 0 => ws
  | n + 1 =>
    let t := ws.length
    let w := w32 (smallSigma1 (ws.getD (t - 2) 0) + ws.getD (t - 7) 0 +
                  smallSigma0 (ws.getD (t - 15) 0) + ws.getD (t - 16) 0)
    extendSchedule (ws ++ [w]) n

/-- One SHA-256 round: update the working state with word `w` and constant `k`. -/
def sha256Round (st : List Nat) (wk : Nat × Nat) : List Nat :=
  match st with
  | [a, b, c, d, e, f, g, h] =>
    let t1 := w32 (h + bigSigma1 e + ((e &&& f) ^^^ (wnot e &&& g)) + wk.2 + wk.1)
    let t2 := w32 (bigSigma0 a + ((a &&& b) ^^^ (a &&& c) ^^^ (b &&& c)))
    [w32 (t1 + t2), a, b, c, w32 (d + t1), e, f, g]
  | other => other

/-- Compress one 64-byte block into the chaining state. -/
def sha256Compress (hs : List Nat) (block : List Nat) : List Nat :=
  let ws := extendSchedule (bytesToWords block) 48
  let st := (ws.zip sha256K).foldl sha256Round hs
  (hs.zip st).map (fun p => w32 (p.1 + p.2))

/-- SHA-256 digest of a byte list, as a list of 32 bytes. -/
def sha256Bytes (msg : List Nat) : List Nat :=
  ((chunk64 (sha256Pad msg)).foldl sha256Compress sha256H0).flatMap (beBytes 4)

/-! ## Hex and UTF-8 utilities -/

/-- Lowercase hex digit for a value `< 16`. -/
def hexDigit (n : Nat) : Char :=
  if n < 10 then Char.ofNat (48 + n) else Char.ofNat (87 + n)

/-- Lowercase hex encoding of a byte list (two digits per byte, zero padded),
mirroring `byte.toString(16).padStart(2, '0')` in `crypto.ts`. -/
def bytesToHex (bs : List Nat) : String :=
  ⟨bs.flatMap (fun b => [hexDigit (b / 16), hexDigit (b % 16)])⟩

/-- Value of one hex digit character, if it is one (either case). -/
def hexVal? (c : Char) : Option Nat :=
  if 48 ≤ c.toNat ∧ c.toNat ≤ 57 then some (c.toNat - 48)
  else if 97 ≤ c.toNat ∧ c.toNat ≤ 102 then some (c.toNat - 87)
  else if 65 ≤ c.toNat ∧ c.toNat ≤ 70 then some (c.toNat - 55)
  else none

/-- Decode a hex string into bytes (two digits per byte). -/
def hexToBytes? : List Char → Option (List Nat)
  | [] => some []
  | hi :: lo :: rest => do
    let h ← hexVal? hi
    let l ← hexVal? lo
    let tail ← hexToBytes? rest
    pure ((h * 16 + l) :: tail)
  | [_] => none

/-- Hex digit test of JavaScript character class `[a-fA-F0-9]`. -/
def isHexDigitChar (c : Char) : Bool := (hexVal? c).isSome

/-- Lowercase-hex digit test (`[a-f0-9]`). -/
def isLowerHexChar (c : Char) : Bool :=
  (48 ≤ c.toNat ∧ c.toNat ≤ 57) ∨ (97 ≤ c.toNat ∧ c.toNat ≤ 102)

/-- UTF-8 encoding of one character (what `TextEncoder.encode` does per code point). -/
def utf8Char (c : Char) : List Nat :=
  let n := c.toNat
  if n < 0x80 then [n]
  else if n < 0x800 then [0xC0 + n / 64, 0x80 + n % 64]
  else if n < 0x10000 then [0xE0 + n / 4096, 0x80 + n / 64 % 64, 0x80 + n % 64]
  else [0xF0 + n / 262144, 0x80 + n / 4096 % 64, 0x80 + n / 64 % 64, 0x80 + n % 64]

/-- UTF-8 encoding of a string, as `TextEncoder.encode` produces in `crypto.ts`. -/
def utf8Encode (s : String) : List Nat := s.data.flatMap utf8Char

/-! ## `packages/shared/src/utils/crypto.ts` -/

/-- `sha256(data: string)`: SHA-256 over the UTF-8 encoding of the *string* `data`,
returned as lowercase hex. Note: the input is the textual string, not decoded bytes. -/
def sha256TS (data : String) : String := bytesToHex (sha256Bytes (utf8Encode data))

/-- `verifySecret(secret, expectedHash)`: string equality of `sha256(secret)`
with `expectedHash`. -/
def verifySecret (secret expectedHash : String) : Bool :=
  sha256TS secret == expectedHash

/-- `validateHash(hash)`: exactly 64 hex characters, either case. -/
def validateHash (hash : String) : Bool :=
  hash.length == 64 && hash.data.all isHexDigitChar

/-- `normalizeHash(hash)`: lowercase and strip one leading `0x`. -/
def normalizeHash (hash : String) : String :=
  let l := hash.toLower
  if l.startsWith "0x" then l.drop 2 else l

/-! ## `contracts/src/AssetRegistry.sol`

State-passing embedding: each external function takes the caller, the block
timestamp `now` and the contract state, and returns `Except String RegState`
(`.error` is a revert, which in EVM semantics leaves the state untouched).
Addresses are `Nat` with `0` the zero address; `bytes32` values are lists of
32 bytes. -/

/-- An EVM address (0 = the zero address). -/
abbrev Address := Nat

/-- The `SaleEscrow` struct of `IAssetRegistry`. -/
structure SaleEscrow where
  seller : Address
  buyer : Address
  hashH : List Nat
  expiryTimestamp : Nat
  priceBTC : Nat
  active : Bool
deriving DecidableEq

/-- The all-zero `bytes32`. -/
def zeroHash32 : List Nat := List.replicate 32 0

/-- Solidity mapping default: the zero-filled escrow struct (what `delete` writes). -/
def emptyEscrow : SaleEscrow := ⟨0, 0, zeroHash32, 0, 0, false⟩

/-- `MIN_ESCROW_DURATION = 1 hours`. -/
def MIN_ESCROW_DURATION : Nat := 3600

/-- `MAX_ESCROW_DURATION = 30 days`. -/
def MAX_ESCROW_DURATION : Nat := 2592000

/-- Storage of `AssetRegistry` (plus the inherited ERC721 ownership maps). -/
structure RegState where
  owners : Nat → Option Address
  tokenApprovals : Nat → Address
  operatorApprovals : Address → Address → Bool
  escrows : Nat → SaleEscrow

/-- OpenZeppelin ERC721 `_transfer(from, to, tokenId)`: unchecked by caller
authorization; reverts on zero receiver, missing token, or `from` not the
current owner; moves ownership and clears the token approval. -/
def erc721Transfer (fromA toA : Address) (tokenId : Nat) (s : RegState) :
    Except String RegState :=
  if toA = 0 then .error "ERC721InvalidReceiver"
  else
    match s.owners tokenId with
    | none => .error "ERC721NonexistentToken"
    | some prev =>
      if prev ≠ fromA then .error "ERC721IncorrectOwner"
      else .ok { s with
        owners := fun t => if t = tokenId then some toA else s.owners t,
        tokenApprovals := fun t => if t = tokenId then 0 else s.tokenApprovals t }

/-- OpenZeppelin ERC721 `transferFrom`: like `_transfer` but the caller must be
the owner, an approved operator, or the per-token approved address. -/
def erc721TransferFrom (caller fromA toA : Address) (tokenId : Nat) (s : RegState) :
    Except String RegState :=
  if toA = 0 then .error "ERC721InvalidReceiver"
  else
    match s.owners tokenId with
    | none => .error "ERC721NonexistentToken"
    | some ow =>
      if ¬(caller = ow ∨ s.operatorApprovals ow caller = true ∨
           s.tokenApprovals tokenId = caller) then
        .error "ERC721InsufficientApproval"
      else if ow ≠ fromA then .error "ERC721IncorrectOwner"
      else .ok { s with
        owners := fun t => if t = tokenId then some toA else s.owners t,
        tokenApprovals := fun t => if t = tokenId then 0 else s.tokenApprovals t }

/-- `delete _saleEscrows[tokenId]`. -/
def clearEscrow (tokenId : Nat) (s : RegState) : RegState :=
  { s with escrows := fun t => if t = tokenId then emptyEscrow else s.escrows t }

/-- `AssetRegistry.saleOpen(tokenId, buyer, hashH, expiryTimestamp, priceBTC)`,
with modifiers `onlyTokenOwner` (whose `ownerOf` reverts for a missing token),
`tokenExists` and `notInEscrow`, then the requires in source order. -/
def saleOpen (caller : Address) (now tokenId : Nat) (buyer : Address)
    (hashH : List Nat) (expiryTimestamp priceBTC : Nat) (s : RegState) :
    Except String RegState :=
  match s.owners tokenId with
  | none => .error "ERC721NonexistentToken"
  | some ow =>
    if ow ≠ caller then .error "Not the token owner"
    else if (s.escrows tokenId).active then .error "Token is in escrow"
    else if buyer = 0 then .error "Invalid buyer address"
    else if buyer = caller then .error "Cannot sell to yourself"
    else if hashH = zeroHash32 then .error "Invalid hash"
    else if priceBTC = 0 then .error "Price must be greater than 0"
    else if ¬(now + MIN_ESCROW_DURATION < expiryTimestamp) then .error "Expiry too soon"
    else if ¬(expiryTimestamp ≤ now + MAX_ESCROW_DURATION) then .error "Expiry too far"
    else .ok { s with escrows := (fun t =>
      if t = tokenId then ⟨caller, buyer, hashH, expiryTimestamp, priceBTC, true⟩
      else s.escrows t) }

/-- `AssetRegistry.claim(tokenId, secretS)`: modifiers `tokenExists`,
`inEscrow`; requires `now < expiry`, caller is the buyer, and
`sha256(abi.encodePacked(secretS)) == escrow.hashH` over the raw 32 bytes;
then clears the escrow *before* calling `_transfer(seller, buyer, tokenId)`. -/
def claim (caller : Address) (now tokenId : Nat) (secretS : List Nat) (s : RegState) :
    Except String RegState :=
  if (s.owners tokenId).isNone then .error "Token does not exist"
  else if ¬(s.escrows tokenId).active then .error "Token is not in escrow"
  else
    let escrow := s.escrows tokenId
    if ¬(now < escrow.expiryTimestamp) then .error "Escrow expired"
    else if caller ≠ escrow.buyer then .error "Only buyer can claim"
    else if sha256Bytes secretS ≠ escrow.hashH then .error "Invalid secret"
    else erc721Transfer escrow.seller escrow.buyer tokenId (clearEscrow tokenId s)

/-- `AssetRegistry.refund(tokenId)`: modifiers `tokenExists`, `inEscrow`;
requires `now ≥ expiry` or caller is the seller; clears the escrow and does
not touch ownership. -/
def refund (caller : Address) (now tokenId : Nat) (s : RegState) :
    Except String RegState :=
  if (s.owners tokenId).isNone then .error "Token does not exist"
  else if ¬(s.escrows tokenId).active then .error "Token is not in escrow"
  else
    let escrow := s.escrows tokenId
    if now ≥ escrow.expiryTimestamp ∨ caller = escrow.seller then
      .ok (clearEscrow tokenId s)
    else .error "Cannot refund yet"

/-- `AssetRegistry.transferFrom` override: `notInEscrow` then the ERC721 transfer. -/
def transferFrom (caller fromA toA : Address) (tokenId : Nat) (s : RegState) :
    Except String RegState :=
  if (s.escrows tokenId).active then .error "Token is in escrow"
  else erc721TransferFrom caller fromA toA tokenId s

/-- `AssetRegistry.safeTransferFrom(from, to, tokenId, data)` override:
`notInEscrow`, then the ERC721 transfer (the receiver hook is a no-op for
externally-owned accounts and is not modelled). -/
def safeTransferFromData (caller fromA toA : Address) (tokenId : Nat)
    (_dat : List Nat) (s : RegState) : Except String RegState :=
  if (s.escrows tokenId).active then .error "Token is in escrow"
  else erc721TransferFrom caller fromA toA tokenId s

/-- `AssetRegistry.safeTransferFrom(from, to, tokenId)` override. -/
def safeTransferFrom (caller fromA toA : Address) (tokenId : Nat) (s : RegState) :
    Except String RegState :=
  if (s.escrows tokenId).active then .error "Token is in escrow"
  else erc721TransferFrom caller fromA toA tokenId s

/-- `AssetRegistry.isInEscrow(tokenId)` view, with the `tokenExists` modifier. -/
def isInEscrowView (tokenId : Nat) (s : RegState) : Except String Bool :=
  if (s.owners tokenId).isNone then .error "Token does not exist"
  else .ok (s.escrows tokenId).active

/-- `AssetRegistry.canClaim(tokenId, secretS)` view. -/
def canClaimView (now tokenId : Nat) (secretS : List Nat) (s : RegState) :
    Except String Bool :=
  if (s.owners tokenId).isNone then .error "Token does not exist"
  else
    let escrow := s.escrows tokenId
    .ok (escrow.active && decide (now < escrow.expiryTimestamp) &&
         decide (sha256Bytes secretS = escrow.hashH))

/-- `AssetRegistry.canRefund(tokenId)` view. -/
def canRefundView (now tokenId : Nat) (s : RegState) : Except String Bool :=
  if (s.owners tokenId).isNone then .error "Token does not exist"
  else
    let escrow := s.escrows tokenId
    .ok (escrow.active && decide (now ≥ escrow.expiryTimestamp))

/-! ## Watcher data model (`services/watcher/src/utils/bitcoin.ts`, `utils/htlc.ts`)

Times are `Int` unix seconds (JS numbers can go negative under subtraction),
amounts are satoshis as `Int`, BTC-denominated API values are `Rat`. -/

/-- One transaction output as delivered by the chain API: a BTC-denominated
`value` and the `scriptPubKey.address`, when present. -/
structure TxOut where
  value : Rat
  address : Option String
deriving DecidableEq

/-- One transaction input: the witness stack, when present. -/
structure TxIn where
  witness : Option (List String)
deriving DecidableEq

/-- The `BitcoinTransaction` fields the watcher reads. -/
structure BitcoinTransaction where
  txid : String
  vin : List TxIn
  vout : List TxOut
  confirmations : Option Nat
deriving DecidableEq

/-- JavaScript `Math.round`: round half up. -/
def jsRound (q : Rat) : Int := (q + 1/2).floor

/-- Status enumeration of a pending swap. -/
inductive SwapStatus where
  | waiting_btc
  | btc_locked
  | asset_locked
  | claimed
  | refunded
  | expired
deriving DecidableEq

/-- `['claimed', 'refunded', 'expired'].includes(status)`. -/
def isTerminalStatus : SwapStatus → Bool
  | .claimed => true
  | .refunded => true
  | .expired => true
  | _ => false

/-- The `PendingHTLC` record of `utils/htlc.ts`. `priceBTC` is stored as a
decimal string in the source and read back with `parseInt`; it is carried
here as the parsed number. -/
structure PendingHTLC where
  hashH : String
  tokenId : String
  priceBTC : Nat
  sellerAddress : String
  buyerAddress : String
  deadline : Int
  status : SwapStatus
  btcTxid : Option String
  assetTxid : Option String
  secretS : Option String
  createdAt : Int
  updatedAt : Int
deriving DecidableEq

/-- The fields of `Omit<PendingHTLC, 'status' | 'createdAt' | 'updatedAt'>`
passed to `addHTLC` / `registerSwap`. -/
structure HTLCRequest where
  hashH : String
  tokenId : String
  priceBTC : Nat
  sellerAddress : String
  buyerAddress : String
  deadline : Int
deriving DecidableEq

/-- `Σ Math.round(vout.value · 10⁸)` over *all* outputs of the transaction,
as `validateHTLCMatch` computes `actualAmount`. -/
def txTotalSats (tx : BitcoinTransaction) : Int :=
  (tx.vout.map (fun o => jsRound (o.value * 100000000))).sum

/-- The `errors` list of `HTLCManager.validateHTLCMatch`: insufficient total
amount, and expired deadline. -/
def validateHTLCMatchErrors (now : Int) (htlc : PendingHTLC)
    (tx : BitcoinTransaction) : List String :=
  (if txTotalSats tx < (htlc.priceBTC : Int) then
    ["Insufficient BTC amount"] else []) ++
  (if htlc.deadline < now then ["HTLC has expired"] else [])

/-- The `warnings` list of `validateHTLCMatch` (confirmations below 1). -/
def validateHTLCMatchWarnings (tx : BitcoinTransaction) : List String :=
  match tx.confirmations with
  | some c => if c < 1 then ["Transaction not yet confirmed"] else []
  | none => []

/-- `validateHTLCMatch(...).valid = errors.length === 0`. -/
def validateHTLCMatchValid (now : Int) (htlc : PendingHTLC)
    (tx : BitcoinTransaction) : Bool :=
  (validateHTLCMatchErrors now htlc tx).isEmpty

/-- `extractSecretFromWitness(witness)`: looks only at `witness[1]` (needs a
stack of length ≥ 2) and returns it when it is exactly 64 hex characters
(either case, per the regex `/^[a-fA-F0-9]+$/`). No hash comparison is made. -/
def extractSecretFromWitness (witness : List String) : Option String :=
  match witness.get? 1 with
  | some preimage =>
    if preimage.length == 64 && preimage.data.all isHexDigitChar then some preimage
    else none
  | none => none

/-- `BitcoinWatcher.extractSecretFromTransaction`: first input whose witness
yields a candidate preimage. -/
def extractSecretFromTransaction : List TxIn → Option String
  | [] => none
  | i :: rest =>
    match i.witness with
    | some w =>
      match extractSecretFromWitness w with
      | some s => some s
      | none => extractSecretFromTransaction rest
    | none => extractSecretFromTransaction rest

/-! ## `HTLCManager` (`utils/htlc.ts`): the pending-swap map

A JavaScript `Map` keyed by `hashH`, insertion-ordered; `set` on an existing
key replaces the value in place. -/

/-- The pending-HTLC map. -/
abbrev HTLCMap := List (String × PendingHTLC)

/-- `Map.set`: replace the binding in place, or append a new one. -/
def mapSet : HTLCMap → String → PendingHTLC → HTLCMap
  | [], k, v => [(k, v)]
  | (k', v') :: rest, k, v =>
    if k' = k then (k, v) :: rest else (k', v') :: mapSet rest k v

/-- `Map.get`. -/
def mapGet : HTLCMap → String → Option PendingHTLC
  | [], _ => none
  | (k', v') :: rest, k => if k' = k then some v' else mapGet rest k

/-- `Array.from(map.values())`. -/
def mapValues (m : HTLCMap) : List PendingHTLC := m.map Prod.snd

/-- `HTLCManager.addHTLC`: builds the full record with `status: 'waiting_btc'`
and stores it with `Map.set` — overwriting any existing entry under the same
`hashH`. -/
def addHTLC (m : HTLCMap) (now : Int) (h : HTLCRequest) : HTLCMap :=
  mapSet m h.hashH
    ⟨h.hashH, h.tokenId, h.priceBTC, h.sellerAddress, h.buyerAddress, h.deadline,
     .waiting_btc, none, none, none, now, now⟩

/-- `HTLCManager.updateHTLCStatus` restricted to the status field (callers in
`BitcoinWatcher` pass `extra` separately where needed). -/
def updateStatus (m : HTLCMap) (now : Int) (hashH : String) (st : SwapStatus) :
    HTLCMap :=
  match mapGet m hashH with
  | none => m
  | some h => mapSet m hashH { h with status := st, updatedAt := now }

/-- `HTLCManager.getExpiredHTLCs`: deadline passed and status not terminal. -/
def getExpiredHTLCs (m : HTLCMap) (now : Int) : List PendingHTLC :=
  (mapValues m).filter (fun h => h.deadline < now && !isTerminalStatus h.status)

/-- `BitcoinWatcher.checkExpiredHTLCs`: mark every expired swap `expired`. -/
def checkExpiredHTLCs (m : HTLCMap) (now : Int) : HTLCMap :=
  (getExpiredHTLCs m now).foldl (fun acc h => updateStatus acc now h.hashH .expired) m

/-! ## `BitcoinWatcher.ts` detection pipeline -/

/-- `BitcoinWatcher.checkAddressForHTLC`: walk the address's transactions,
skip processed txids, and on the first one `validateHTLCMatch` accepts, mark
the swap `btc_locked`, record the txid in the processed set, and emit
`htlc_detected` with that transaction. -/
def checkAddressForHTLC (now : Int) (htlc : PendingHTLC) (processed : List String) :
    List BitcoinTransaction → PendingHTLC × List String × Option BitcoinTransaction
  | [] => (htlc, processed, none)
  | tx :: rest =>
    if processed.contains tx.txid then checkAddressForHTLC now htlc processed rest
    else if validateHTLCMatchValid now htlc tx then
      ({ htlc with status := .btc_locked, btcTxid := some tx.txid, updatedAt := now },
       tx.txid :: processed, some tx)
    else checkAddressForHTLC now htlc processed rest

/-- `BitcoinWatcher.recheckPendingHTLCs` body for one `btc_locked` swap: the
source fetches the funding transaction and, when
`tx.confirmations >= config.confirmations`, only writes a log line
("HTLC transaction confirmed ... ready for asset locking"); it performs no
status update and no escrow call, so the swap record is returned unchanged. -/
def recheckPendingHTLC (_minConfirmations : Nat) (htlc : PendingHTLC)
    (_fundingTx : Option BitcoinTransaction) : PendingHTLC :=
  htlc

/-! ## `HTLCDetector.ts` and `EVMBridge.ts` -/

/-- The `saleOpen` call the detector submits through the EVM bridge. -/
structure OpenEscrowCall where
  tokenId : String
  buyer : String
  hashH : String
  expiryTimestamp : Int
  priceBTC : Nat
deriving DecidableEq

/-- `HTLCDetector.handleHTLCDetected`: runs directly on the `htlc_detected`
event; computes `assetExpiry = deadline - timeoutBufferSeconds`, skips when
that is already in the past, and otherwise immediately submits
`openSaleEscrow` — no confirmation count is consulted. -/
def handleHTLCDetected (timeoutBufferSeconds now : Int) (htlc : PendingHTLC) :
    Option OpenEscrowCall :=
  let assetExpiry := htlc.deadline - timeoutBufferSeconds
  if assetExpiry ≤ now then none
  else some ⟨htlc.tokenId, htlc.buyerAddress, htlc.hashH, assetExpiry, htlc.priceBTC⟩

/-- `HTLCDetector.registerSwap`: forwards to `addHTLCWatch`, which stores the
record via `addHTLC` and adds the seller address to the watched set. -/
def registerSwap (m : HTLCMap) (watched : List String) (now : Int)
    (r : HTLCRequest) : HTLCMap × List String :=
  (addHTLC m now r,
   if watched.contains r.sellerAddress then watched else r.sellerAddress :: watched)

/-- `EVMBridge.isInEscrow`: awaits the contract call; on any thrown error it
logs and returns `false` instead of propagating. -/
def isInEscrowBridge (callResult : Except String Bool) : Bool :=
  match callResult with
  | .ok b => b
  | .error _ => false

/-- The `refund(tokenId)` call the expiry handler may submit. -/
structure RefundCall where
  tokenId : String
deriving DecidableEq

/-- `HTLCDetector.handleHTLCExpired`: queries `isInEscrow` through the bridge
and calls `refundAsset` only when it returned `true`; otherwise it logs
"no refund needed" and does nothing. -/
def handleHTLCExpired (tokenId : String) (escrowQuery : Except String Bool) :
    Option RefundCall :=
  if isInEscrowBridge escrowQuery then some ⟨tokenId⟩ else none

/-! ## Spec-side definitions used to state claims that the code refutes -/

/-- Spec §4.4 step 2 reading: summed output value *paid to the seller's
address*, in satoshis. Stated from the spec's words for comparison with the
source's `validateHTLCMatch`, which sums over all outputs. -/
def specSumToSellerSats (sellerAddress : String) (tx : BitcoinTransaction) : Int :=
  ((tx.vout.filter (fun o => o.address = some sellerAddress)).map
    (fun o => jsRound (o.value * 100000000))).sum

/-- Spec §4.4 reading for secret extraction: exactly 64 *lowercase* hex
characters. -/
def specIsLowerHex64 (w : String) : Bool :=
  w.length == 64 && w.data.all isLowerHexChar

/-! ## Concrete fixtures used by the claim theorems and witnesses -/

/-- A 32-byte secret of `0xaa` bytes (test fixture, spec scenario E1). -/
def rawSecretAA : List Nat := List.replicate 32 0xaa

/-- The same secret hex-encoded, as the shared crypto utilities handle it. -/
def hexSecretAA : String := ⟨List.replicate 64 'a'⟩

/-- Its SHA-256 commitment over the raw bytes (the contract's view). -/
def sampleHash : List Nat := sha256Bytes rawSecretAA

/-- A registry state with token 1 owned by address 10 and escrowed for buyer
20 under `sampleHash`, expiring at time 5000, price 50 000 000 sats. -/
def sampleState : RegState where
  owners := fun t => if t = 1 then some 10 else none
  tokenApprovals := fun _ => 0
  operatorApprovals := fun _ _ => false
  escrows := fun t =>
    if t = 1 then ⟨10, 20, sampleHash, 5000, 50000000, true⟩ else emptyEscrow

/-- A registry state with token 1 owned by address 10 and no escrow. -/
def sampleState0 : RegState where
  owners := fun t => if t = 1 then some 10 else none
  tokenApprovals := fun _ => 0
  operatorApprovals := fun _ _ => false
  escrows := fun _ => emptyEscrow

/-- Swap fixture for the confirmation-tracking scenario: registered, waiting
for BTC, deadline 10000. -/
def c3Htlc : PendingHTLC :=
  ⟨"c3hash", "1", 50000000, "tb1qseller", "0xbuyer", 10000, .waiting_btc,
   none, none, none, 0, 0⟩

/-- A funding transaction paying 0.5 BTC to the seller with zero
confirmations. -/
def c3Tx : BitcoinTransaction :=
  ⟨"c3txid", [], [⟨1/2, some "tb1qseller"⟩], some 0⟩

/-- The observer's detection step on that transaction at time 1000. -/
def c3Detection : PendingHTLC × List String × Option BitcoinTransaction :=
  checkAddressForHTLC 1000 c3Htlc [] [c3Tx]

/-- Swap fixture for the amount-check claim: price 100 000 sats. -/
def c4Htlc : PendingHTLC :=
  ⟨"c4hash", "2", 100000, "tb1qseller", "0xbuyer", 2000000000, .waiting_btc,
   none, none, none, 0, 0⟩

/-- A transaction whose only output pays 0.002 BTC to a third-party address:
nothing at all goes to the seller. -/
def c4Tx : BitcoinTransaction :=
  ⟨"c4txid", [], [⟨1/500, some "tb1qother"⟩], some 1⟩

/-- A 64-character uppercase hex witness element (decodes to 32 × `0xbb`). -/
def upperW : String := ⟨List.replicate 64 'B'⟩

/-- A witness stack with the uppercase element at index 1. -/
def c5StackUpper : List String := ["3044ab", upperW, "51"]

/-- A witness stack whose only valid preimage sits at index 2. -/
def c5StackDeep : List String := ["00", "51", hexSecretAA]

/-- First registration request for the duplicate-hash scenario. -/
def c6Req1 : HTLCRequest := ⟨"c6hash", "7", 100, "addrSell", "addrBuy", 5000⟩

/-- Second registration request reusing the same `hashH`. -/
def c6Req2 : HTLCRequest := ⟨"c6hash", "8", 200, "addrSell2", "addrBuy2", 9000⟩

/-- The map after the first registration at time 100. -/
def c6M1 : HTLCMap := addHTLC [] 100 c6Req1

/-- The same map after the swap advanced to `btc_locked` at time 150. -/
def c6M2 : HTLCMap := updateStatus c6M1 150 "c6hash" .btc_locked

/-- The map after `register` is called again with the same `hashH` at 200. -/
def c6M3 : HTLCMap := addHTLC c6M2 200 c6Req2

/-! ## Helper lemmas -/

/-! ### SHA-256 sanity checks against FIPS test vectors -/

/-- The embedded SHA-256 agrees with the FIPS vector for the empty message. -/
theorem sha256Bytes_empty :
    sha256Bytes [] =
      [227, 176, 196, 66, 152, 252, 28, 20, 154, 251, 244, 200, 153, 111,
       185, 36, 39, 174, 65, 228, 100, 155, 147, 76, 164, 149, 153, 27,
       120, 82, 184, 85] := by decide

/-- The embedded SHA-256 agrees with the FIPS vector for `"abc"`. -/
theorem sha256Bytes_abc :
    sha256Bytes [0x61, 0x62, 0x63] =
      [186, 120, 22, 191, 143, 1, 207, 234, 65, 65, 64, 222, 93, 174,
       34, 35, 176, 3, 97, 163, 150, 23, 122, 156, 180, 16, 255, 97,
       242, 0, 21, 173] := by decide



theorem mapGet_mapSet_self (m : HTLCMap) (k : String) (v : PendingHTLC) :
    mapGet (mapSet m k v) k = some v := by
  induction m with
  | nil => simp [mapSet, mapGet]
  | cons p rest ih =>
    by_cases h : p.1 = k
    · simp [mapSet, mapGet, h]
    · simp [mapSet, mapGet, h, ih]

theorem clearEscrow_inactive (tokenId : Nat) (s : RegState) :
    ((clearEscrow tokenId s).escrows tokenId).active = false := by
  simp [clearEscrow, emptyEscrow]

theorem clearEscrow_owners (tokenId : Nat) (s : RegState) :
    (clearEscrow tokenId s).owners = s.owners := rfl

theorem saleOpen_isOk_iff (s : RegState) (caller : Address) (now tokenId : Nat)
    (buyer : Address) (hashH : List Nat) (T price : Nat)
    (hown : s.owners tokenId = some caller)
    (hesc : (s.escrows tokenId).active = false) :
    (saleOpen caller now tokenId buyer hashH T price s).isOk = true ↔
      (buyer ≠ 0 ∧ buyer ≠ caller ∧ hashH ≠ zeroHash32 ∧ 0 < price ∧
       now + MIN_ESCROW_DURATION < T ∧ T ≤ now + MAX_ESCROW_DURATION) := by
  unfold saleOpen
  rw [hown]
  by_cases h1 : buyer = 0 <;> by_cases h2 : buyer = caller <;>
    by_cases h3 : hashH = zeroHash32 <;> by_cases h4 : price = 0 <;>
    by_cases h5 : now + 3600 < T <;>
    by_cases h6 : T ≤ now + 2592000 <;>
    simp [hesc, h1, h2, h3, h4, h5, h6, MIN_ESCROW_DURATION, MAX_ESCROW_DURATION,
      Except.isOk, Except.toBool] <;>
    first
      | omega
      | (by_cases hc : caller = 0 <;> simp [hc])

theorem erc721Transfer_ok (fromA toA : Address) (tokenId : Nat) (st : RegState)
    (h0 : ¬toA = 0) (ho : st.owners tokenId = some fromA) :
    erc721Transfer fromA toA tokenId st =
      .ok { st with
        owners := fun t => if t = tokenId then some toA else st.owners t,
        tokenApprovals := fun t => if t = tokenId then 0 else st.tokenApprovals t } := by
  simp [erc721Transfer, h0, ho]

/-! ## Claim theorems -/

/-- C7: with an active escrow on an existing token, `refund(tokenId)` succeeds
iff the caller is the escrow's seller or `now ≥ expiryTimestamp`; on success
the escrow is cleared and the ownership map is untouched (the owner is still
the seller). A revert leaves the state unchanged by EVM semantics, which the
`Except` embedding reflects. The seller branch of the disjunction places no
bound on `now`, so the seller may refund early. -/
theorem refund_characterization (s : RegState) (caller : Address) (now tokenId : Nat)
    (hex : (s.owners tokenId).isNone = false)
    (hact : (s.escrows tokenId).active = true) :
    ((refund caller now tokenId s).isOk = true ↔
      (caller = (s.escrows tokenId).seller ∨ (s.escrows tokenId).expiryTimestamp ≤ now))
    ∧ (∀ s', refund caller now tokenId s = .ok s' →
        (s'.escrows tokenId).active = false ∧ s'.owners = s.owners) := by
  constructor
  · by_cases h : (s.escrows tokenId).expiryTimestamp ≤ now ∨ caller = (s.escrows tokenId).seller
    · simp [refund, hex, hact, h, ge_iff_le]
      tauto
    · push_neg at h
      have h1 : ¬((s.escrows tokenId).expiryTimestamp ≤ now) := not_le.mpr h.1
      simp [refund, hex, hact, ge_iff_le, h1, h.2, Except.isOk, Except.toBool]
  · intro s' hok
    by_cases h : (s.escrows tokenId).expiryTimestamp ≤ now ∨ caller = (s.escrows tokenId).seller
    · simp [refund, hex, hact, h, ge_iff_le] at hok
      subst hok
      exact ⟨clearEscrow_inactive tokenId s, rfl⟩
    · push_neg at h
      have h1 : ¬((s.escrows tokenId).expiryTimestamp ≤ now) := not_le.mpr h.1
      simp [refund, hex, hact, ge_iff_le, h1, h.2] at hok

/-- Witness for C7: the seller (address 10) refunds early (time 100 < expiry
5000) and the escrow is cleared with the owner unchanged. -/
theorem refund_characterization_witness :
    (refund 10 100 1 sampleState).isOk = true ∧
    (∀ s', refund 10 100 1 sampleState = .ok s' →
      (s'.escrows 1).active = false ∧ s'.owners = sampleState.owners) :=
  have h := refund_characterization sampleState 10 100 1 (by decide) (by decide)
  ⟨h.1.mpr (Or.inl (by decide)), h.2⟩

/-- C8: while a token's escrow is active, all three ownership-transfer entry
points (`transferFrom` and both `safeTransferFrom` overloads) revert with
"Token is in escrow" for every caller, sender and receiver, so the owner
cannot change except through `claim` (which clears the escrow first). -/
theorem escrow_blocks_transfers (s : RegState) (caller fromA toA : Address)
    (tokenId : Nat) (dat : List Nat)
    (hact : (s.escrows tokenId).active = true) :
    transferFrom caller fromA toA tokenId s = .error "Token is in escrow" ∧
    safeTransferFrom caller fromA toA tokenId s = .error "Token is in escrow" ∧
    safeTransferFromData caller fromA toA tokenId dat s = .error "Token is in escrow" := by
  simp [transferFrom, safeTransferFrom, safeTransferFromData, hact]

/-- Witness for C8: on the sample escrowed state even the owner cannot move
token 1. -/
theorem escrow_blocks_transfers_witness :
    transferFrom 10 10 30 1 sampleState = .error "Token is in escrow" ∧
    safeTransferFrom 10 10 30 1 sampleState = .error "Token is in escrow" ∧
    safeTransferFromData 10 10 30 1 [] sampleState = .error "Token is in escrow" :=
  escrow_blocks_transfers sampleState 10 10 30 1 [] (by decide)

/-- C9: called by the current owner of a token not in escrow, `saleOpen`
succeeds iff `buyer ≠ 0`, `buyer ≠ owner`, `H ≠ 0`, `price > 0` and
`now + 1h < T ≤ now + 30d`; the boundary cases `now + 3599` (fail),
`now + 3601` (ok), `now + 30·86400` (ok) and `now + 30·86400 + 1` (fail)
behave as the claim states; on success the escrow record is
`{seller: owner, buyer, hashH, expiryTimestamp: T, priceBTC: price, active: true}`. -/
theorem saleOpen_characterization (s : RegState) (caller : Address)
    (now tokenId : Nat) (buyer : Address) (hashH : List Nat) (T price : Nat)
    (hown : s.owners tokenId = some caller)
    (hesc : (s.escrows tokenId).active = false) :
    ((saleOpen caller now tokenId buyer hashH T price s).isOk = true ↔
      (buyer ≠ 0 ∧ buyer ≠ caller ∧ hashH ≠ zeroHash32 ∧ 0 < price ∧
       now + 3600 < T ∧ T ≤ now + 2592000))
    ∧ (∀ s', saleOpen caller now tokenId buyer hashH T price s = .ok s' →
        s'.escrows tokenId = ⟨caller, buyer, hashH, T, price, true⟩)
    ∧ (buyer ≠ 0 → buyer ≠ caller → hashH ≠ zeroHash32 → 0 < price →
        ((saleOpen caller now tokenId buyer hashH (now + 3599) price s).isOk = false ∧
         (saleOpen caller now tokenId buyer hashH (now + 3601) price s).isOk = true ∧
         (saleOpen caller now tokenId buyer hashH (now + 2592000) price s).isOk = true ∧
         (saleOpen caller now tokenId buyer hashH (now + 2592001) price s).isOk = false)) := by
  refine ⟨?_, ?_, ?_⟩
  · simpa [MIN_ESCROW_DURATION, MAX_ESCROW_DURATION] using
      saleOpen_isOk_iff s caller now tokenId buyer hashH T price hown hesc
  · intro s' hok
    have hconds := (saleOpen_isOk_iff s caller now tokenId buyer hashH T price hown hesc).mp
      (by rw [hok]; rfl)
    obtain ⟨h1, h2, h3, h4, h5, h6⟩ := hconds
    unfold saleOpen at hok
    rw [hown] at hok
    have g1 : ¬(T ≤ now + 3600) := by
      simp [MIN_ESCROW_DURATION] at h5; omega
    have g2 : ¬(now + 2592000 < T) := by
      simp [MAX_ESCROW_DURATION] at h6; omega
    simp [hesc, h1, h2, h3, Nat.pos_iff_ne_zero.mp h4, g1, g2,
      MIN_ESCROW_DURATION, MAX_ESCROW_DURATION] at hok
    subst hok
    simp
  · intro h1 h2 h3 h4
    refine ⟨?_, ?_, ?_, ?_⟩
    · cases hb : (saleOpen caller now tokenId buyer hashH (now + 3599) price s).isOk
      · rfl
      · exact absurd
          ((saleOpen_isOk_iff s caller now tokenId buyer hashH (now + 3599) price
            hown hesc).mp hb).2.2.2.2.1 (by simp [MIN_ESCROW_DURATION])
    · exact (saleOpen_isOk_iff s caller now tokenId buyer hashH (now + 3601) price
        hown hesc).mpr ⟨h1, h2, h3, h4, by simp [MIN_ESCROW_DURATION],
          by simp [MAX_ESCROW_DURATION]⟩
    · exact (saleOpen_isOk_iff s caller now tokenId buyer hashH (now + 2592000) price
        hown hesc).mpr ⟨h1, h2, h3, h4, by simp [MIN_ESCROW_DURATION],
          by simp [MAX_ESCROW_DURATION]⟩
    · cases hb : (saleOpen caller now tokenId buyer hashH (now + 2592001) price s).isOk
      · rfl
      · exact absurd
          ((saleOpen_isOk_iff s caller now tokenId buyer hashH (now + 2592001) price
            hown hesc).mp hb).2.2.2.2.2 (by simp [MAX_ESCROW_DURATION])

/-- Witness for C9: on a free token the sample sale opens at
`T = now + 9000` and the escrow record is as specified. -/
theorem saleOpen_characterization_witness :
    (saleOpen 10 1000 1 20 sampleHash 10000 50000000 sampleState0).isOk = true ∧
    (∀ s', saleOpen 10 1000 1 20 sampleHash 10000 50000000 sampleState0 = .ok s' →
      s'.escrows 1 = ⟨10, 20, sampleHash, 10000, 50000000, true⟩) :=
  have h := saleOpen_characterization sampleState0 10 1000 1 20 sampleHash 10000 50000000
    rfl rfl
  ⟨h.1.mpr ⟨by decide, by decide, by decide, by decide, by decide, by decide⟩, h.2.1⟩

/-- C2: with an active escrow on an existing token whose owner is the escrow's
seller (as `saleOpen` guarantees), `claim(tokenId, S)` succeeds iff the caller
is the escrow's buyer, `now` is strictly before the expiry, and the SHA-256
of the raw 32-byte secret equals the escrow's `hashH`; on success the escrow
is inactive and the owner is the buyer; the final state is produced by
`_transfer` applied to the state in which the escrow has already been deleted
(clear-before-transfer). A failing precondition reverts, which leaves the
state — in particular the active escrow — unchanged by EVM semantics. -/
theorem claim_characterization (s : RegState) (caller : Address) (now tokenId : Nat)
    (secretS : List Nat)
    (hown : s.owners tokenId = some (s.escrows tokenId).seller)
    (hact : (s.escrows tokenId).active = true)
    (hbuyer : ¬(s.escrows tokenId).buyer = 0) :
    ((claim caller now tokenId secretS s).isOk = true ↔
      (caller = (s.escrows tokenId).buyer ∧ now < (s.escrows tokenId).expiryTimestamp ∧
       sha256Bytes secretS = (s.escrows tokenId).hashH))
    ∧ (∀ s', claim caller now tokenId secretS s = .ok s' →
        (s'.escrows tokenId).active = false ∧
        s'.owners tokenId = some (s.escrows tokenId).buyer)
    ∧ ((caller = (s.escrows tokenId).buyer ∧ now < (s.escrows tokenId).expiryTimestamp ∧
        sha256Bytes secretS = (s.escrows tokenId).hashH) →
       (claim caller now tokenId secretS s =
         erc721Transfer (s.escrows tokenId).seller (s.escrows tokenId).buyer tokenId
           (clearEscrow tokenId s)
        ∧ ((clearEscrow tokenId s).escrows tokenId).active = false)) := by
  have hco : (clearEscrow tokenId s).owners tokenId = some (s.escrows tokenId).seller := by
    rw [clearEscrow_owners]; exact hown
  have htr := erc721Transfer_ok (s.escrows tokenId).seller (s.escrows tokenId).buyer
    tokenId (clearEscrow tokenId s) hbuyer hco
  by_cases h1 : now < (s.escrows tokenId).expiryTimestamp <;>
    by_cases h2 : caller = (s.escrows tokenId).buyer <;>
    by_cases h3 : sha256Bytes secretS = (s.escrows tokenId).hashH
  · refine ⟨?_, ?_, ?_⟩
    · simp only [claim, hown, hact, h1, h2, h3]
      simp [htr, h1, h2, h3, Except.isOk, Except.toBool]
    · intro s' hok
      simp only [claim, hown, hact, h1, h2, h3] at hok
      simp [htr, h1, h2, h3] at hok
      subst hok
      constructor
      · simpa using clearEscrow_inactive tokenId s
      · simp
    · intro _
      constructor
      · simp [claim, hown, hact, h1, h2, h3]
      · exact clearEscrow_inactive tokenId s
  all_goals
    refine ⟨?_, ?_, ?_⟩
    · simp [claim, hown, hact, h1, h2, h3, Except.isOk, Except.toBool]
      try tauto
    · intro s' hok
      simp [claim, hown, hact, h1, h2, h3] at hok
    · intro hcond
      exact absurd hcond (by tauto)

/-- Witness for C2: the buyer (address 20) claims token 1 before expiry with
the correct raw secret; the wrong caller (30) fails. -/
theorem claim_characterization_witness :
    (claim 20 4000 1 rawSecretAA sampleState).isOk = true ∧
    (claim 30 4000 1 rawSecretAA sampleState).isOk = false :=
  have h := claim_characterization sampleState 20 4000 1 rawSecretAA rfl rfl (by decide)
  have h30 := claim_characterization sampleState 30 4000 1 rawSecretAA rfl rfl (by decide)
  ⟨h.1.mpr ⟨rfl, by decide, rfl⟩,
   by
    cases hb : (claim 30 4000 1 rawSecretAA sampleState).isOk
    · rfl
    · exact absurd (h30.1.mp hb).1 (by decide)⟩

/-- C1 (code bug): the shared `verifySecret` hashes the UTF-8 bytes of the
hex *string* `S`, while the on-chain check in `AssetRegistry.claim` hashes
the raw 32 bytes of the preimage, so the two disagree for the same
hex-encoded `S` and `H`. With `S = 0xaa…aa`: the contract accepts the raw
secret against `H = SHA-256(raw S)` (third conjunct, on the escrowed sample
state), while `verifySecret` rejects the hex encodings of the same pair
(second conjunct); the digests differ (first conjunct). The last conjunct
shows what `verifySecret` actually accepts: the digest of the text. -/
theorem verifySecret_disagrees_with_onchain :
    sha256Bytes (utf8Encode hexSecretAA) ≠ sha256Bytes rawSecretAA ∧
    verifySecret hexSecretAA (bytesToHex (sha256Bytes rawSecretAA)) = false ∧
    (claim 20 4000 1 rawSecretAA sampleState).isOk = true ∧
    verifySecret hexSecretAA (sha256TS hexSecretAA) = true := by
  refine ⟨by decide, by decide, by decide, by decide⟩

/-- C3 (code bug): the zero-confirmation funding transaction is accepted by
`validateHTLCMatch` (confirmations below 1 is only a warning), the swap is
marked `btc_locked`, and the `htlc_detected` event fires `handleHTLCDetected`,
which immediately submits `openSaleEscrow` — before any confirmation
threshold (here `N_conf = 3`) is reached. The block-notification recheck
leaves the status `btc_locked` even at 5 ≥ 3 confirmations: no transition to
`asset_locked` exists in the code. -/
theorem confirmation_gating_missing :
    validateHTLCMatchValid 1000 c3Htlc c3Tx = true ∧
    validateHTLCMatchWarnings c3Tx = ["Transaction not yet confirmed"] ∧
    c3Detection.1.status = .btc_locked ∧
    c3Detection.2.2 = some c3Tx ∧
    c3Tx.confirmations = some 0 ∧
    handleHTLCDetected 7200 1000 c3Detection.1 =
      some ⟨"1", "0xbuyer", "c3hash", 2800, 50000000⟩ ∧
    (recheckPendingHTLC 3 c3Detection.1 (some { c3Tx with confirmations := some 5 })).status
      = .btc_locked := by
  refine ⟨by with_unfolding_all decide, by decide, by with_unfolding_all decide,
    by with_unfolding_all rfl, by decide, by with_unfolding_all rfl,
    by with_unfolding_all decide⟩

/-- C4 counterexample: the observer accepts `c4Tx` and marks the swap
`btc_locked` although the summed output value paid to the seller's address is
0, far below `priceBTC` — `validateHTLCMatch` sums over all outputs without
looking at the recipient address, so the claim's "only if" direction fails. -/
theorem amount_check_ignores_address :
    validateHTLCMatchValid 1000 c4Htlc c4Tx = true ∧
    (checkAddressForHTLC 1000 c4Htlc [] [c4Tx]).1.status = .btc_locked ∧
    specSumToSellerSats "tb1qseller" c4Tx = 0 ∧
    (0 : Int) < (c4Htlc.priceBTC : Int) := by
  refine ⟨by with_unfolding_all decide, by with_unfolding_all decide,
    by with_unfolding_all decide, by decide⟩

/-- C4 amended: for an unprocessed candidate transaction, the observer marks
a `waiting_btc` swap `btc_locked` iff the sum of `Math.round(value·10⁸)` over
*all* outputs of the transaction reaches `priceBTC` and the swap's deadline
has not passed; the seller's address is not consulted in the amount check. -/
theorem detection_amount_characterization (now : Int) (htlc : PendingHTLC)
    (tx : BitcoinTransaction) (processed : List String)
    (hst : htlc.status = .waiting_btc)
    (hnp : processed.contains tx.txid = false) :
    ((checkAddressForHTLC now htlc processed [tx]).1.status = .btc_locked ↔
      ((htlc.priceBTC : Int) ≤ txTotalSats tx ∧ now ≤ htlc.deadline))
    ∧ (validateHTLCMatchValid now htlc tx = true ↔
      ((htlc.priceBTC : Int) ≤ txTotalSats tx ∧ now ≤ htlc.deadline)) := by
  have hv : validateHTLCMatchValid now htlc tx = true ↔
      ((htlc.priceBTC : Int) ≤ txTotalSats tx ∧ now ≤ htlc.deadline) := by
    by_cases ha : txTotalSats tx < (htlc.priceBTC : Int) <;>
      by_cases hd : htlc.deadline < now <;>
      (simp [validateHTLCMatchValid, validateHTLCMatchErrors, ha, hd]; try omega)
  refine ⟨?_, hv⟩
  by_cases hvb : validateHTLCMatchValid now htlc tx = true
  · simp only [checkAddressForHTLC, hnp, Bool.false_eq_true, if_false, hvb, if_true]
    simpa using hv.mp hvb
  · have hc : ¬((htlc.priceBTC : Int) ≤ txTotalSats tx ∧ now ≤ htlc.deadline) :=
      fun hcond => hvb (hv.mpr hcond)
    simp [checkAddressForHTLC, hnp, hvb, hst, hc]

/-- Witness for C4's amended theorem: the same third-party-paying transaction
satisfies the all-outputs total, so it is marked `btc_locked`. -/
theorem detection_amount_characterization_witness :
    (checkAddressForHTLC 1000 c4Htlc [] [c4Tx]).1.status = .btc_locked ∧
    (100000 : Int) ≤ txTotalSats c4Tx :=
  have h := detection_amount_characterization 1000 c4Htlc c4Tx [] (by decide) (by decide)
  ⟨h.1.mpr ⟨by with_unfolding_all decide, by decide⟩, by with_unfolding_all decide⟩

/-- C5 counterexample: against the commitment `sampleHash = SHA-256(0xaa…aa)`,
extraction returns the index-1 element `upperW` although it is uppercase and
its decoded bytes do not hash to the commitment (no SHA-256 check exists in
the code); and it returns nothing for a stack whose index-2 element is the
correct lowercase preimage, because only index 1 is ever inspected. -/
theorem witness_extraction_counterexample :
    extractSecretFromWitness c5StackUpper = some upperW ∧
    specIsLowerHex64 upperW = false ∧
    (hexToBytes? upperW.data).map sha256Bytes ≠ some sampleHash ∧
    extractSecretFromWitness c5StackDeep = none ∧
    specIsLowerHex64 hexSecretAA = true ∧
    hexToBytes? hexSecretAA.data = some rawSecretAA ∧
    sha256Bytes rawSecretAA = sampleHash := by
  refine ⟨by decide, by decide, by decide, by decide, by decide, by decide, rfl⟩

/-- C5 amended: `extractSecretFromWitness` inspects only the witness element
at index 1 and returns it iff it is exactly 64 hex characters of either
case; no SHA-256 comparison against the swap's commitment is performed
(`extractSecretFromTransaction` applies this to each input in order). -/
theorem extractSecret_characterization (ws : List String) (w : String) :
    extractSecretFromWitness ws = some w ↔
      (ws.get? 1 = some w ∧ w.length = 64 ∧ w.data.all isHexDigitChar = true) := by
  constructor
  · intro he
    unfold extractSecretFromWitness at he
    cases h : ws.get? 1 with
    | none => rw [h] at he; simp at he
    | some p =>
      rw [h] at he
      by_cases hb : (p.length == 64 && p.data.all isHexDigitChar) = true
      · simp only [hb, if_true] at he
        obtain rfl : p = w := by simpa using he
        simp only [Bool.and_eq_true, beq_iff_eq] at hb
        exact ⟨rfl, hb.1, hb.2⟩
      · simp only [hb, if_false] at he
        simp at he
  · rintro ⟨h, hl, ha⟩
    unfold extractSecretFromWitness
    rw [h]
    simp [hl, ha]

/-- C6 counterexample: a second `register` under the same `hashH`, made while
the first swap is still pending (`btc_locked`), is not rejected with
`DuplicateHash`: `Map.set` silently replaces the existing record with a fresh
`waiting_btc` one for the new request. -/
theorem duplicate_hash_replaces :
    mapGet c6M2 "c6hash" =
      some ⟨"c6hash", "7", 100, "addrSell", "addrBuy", 5000, .btc_locked,
            none, none, none, 100, 150⟩ ∧
    mapGet c6M3 "c6hash" =
      some ⟨"c6hash", "8", 200, "addrSell2", "addrBuy2", 9000, .waiting_btc,
            none, none, none, 200, 200⟩ ∧
    mapGet c6M3 "c6hash" ≠ mapGet c6M2 "c6hash" := by
  refine ⟨by decide, by decide, by decide⟩

/-- C6 amended: a swap registered into an idle coordinator and never fed a
BTC transaction is marked terminal `expired` by the expiry sweep once the
clock passes its deadline, and later sweeps leave it untouched; but a second
`register` under the same `hashH` before that is not rejected — it silently
replaces the pending record with a fresh `waiting_btc` one built from the
new request. -/
theorem register_expire_and_replace (watched : List String)
    (now now2 rereg : Int) (r r2 : HTLCRequest)
    (hdl : r.deadline < now2) (hsame : r2.hashH = r.hashH) :
    (mapGet (registerSwap [] watched now r).1 r.hashH =
      some ⟨r.hashH, r.tokenId, r.priceBTC, r.sellerAddress, r.buyerAddress,
            r.deadline, .waiting_btc, none, none, none, now, now⟩)
    ∧ (mapGet (checkExpiredHTLCs (registerSwap [] watched now r).1 now2) r.hashH =
      some ⟨r.hashH, r.tokenId, r.priceBTC, r.sellerAddress, r.buyerAddress,
            r.deadline, .expired, none, none, none, now, now2⟩)
    ∧ (∀ later,
        checkExpiredHTLCs (checkExpiredHTLCs (registerSwap [] watched now r).1 now2) later =
          checkExpiredHTLCs (registerSwap [] watched now r).1 now2)
    ∧ (mapGet (addHTLC (registerSwap [] watched now r).1 rereg r2) r.hashH =
      some ⟨r2.hashH, r2.tokenId, r2.priceBTC, r2.sellerAddress, r2.buyerAddress,
            r2.deadline, .waiting_btc, none, none, none, rereg, rereg⟩) := by
  refine ⟨?_, ?_, ?_, ?_⟩
  · simp [registerSwap, addHTLC, mapSet, mapGet]
  · simp [registerSwap, addHTLC, checkExpiredHTLCs, getExpiredHTLCs, mapValues,
      updateStatus, isTerminalStatus, mapSet, mapGet, hdl]
  · intro later
    simp [registerSwap, addHTLC, checkExpiredHTLCs, getExpiredHTLCs, mapValues,
      updateStatus, isTerminalStatus, mapSet, mapGet, hdl]
  · simp [registerSwap, addHTLC, mapSet, mapGet, hsame]

/-- Witness for C6's amended theorem: the concrete first request expires at
time 6000 and re-registering `c6hash` replaces the record. -/
theorem register_expire_and_replace_witness :
    (mapGet (checkExpiredHTLCs (registerSwap [] [] 100 c6Req1).1 6000) c6Req1.hashH =
      some ⟨c6Req1.hashH, c6Req1.tokenId, c6Req1.priceBTC, c6Req1.sellerAddress,
            c6Req1.buyerAddress, c6Req1.deadline, .expired, none, none, none, 100, 6000⟩)
    ∧ (mapGet (addHTLC (registerSwap [] [] 100 c6Req1).1 200 c6Req2) c6Req1.hashH =
      some ⟨c6Req2.hashH, c6Req2.tokenId, c6Req2.priceBTC, c6Req2.sellerAddress,
            c6Req2.buyerAddress, c6Req2.deadline, .waiting_btc, none, none, none, 200, 200⟩) :=
  have h := register_expire_and_replace [] 100 6000 200 c6Req1 c6Req2
    (by decide) (by decide)
  ⟨h.2.1, h.2.2.2⟩

/-- C10: when the underlying contract call throws, `EVMBridge.isInEscrow`
swallows the error and returns `false`; consequently `handleHTLCExpired`
treats the token as not in escrow and issues no `refund` call — the failure
is not retried or surfaced. -/
theorem isInEscrow_error_skips_refund (tokenId e : String) :
    isInEscrowBridge (.error e) = false ∧
    handleHTLCExpired tokenId (.error e) = none := by
  simp [isInEscrowBridge, handleHTLCExpired]

/-- Witness for C5's amended theorem: the uppercase 64-hex element at index 1
of the concrete stack is returned. -/
theorem extractSecret_characterization_witness :
    extractSecretFromWitness c5StackUpper = some upperW :=
  (extractSecret_characterization c5StackUpper upperW).mpr
    ⟨by decide, by decide, by decide⟩

/-- Witness for C10 at a concrete token and error. -/
theorem isInEscrow_error_skips_refund_witness :
    isInEscrowBridge (.error "RpcUnavailable") = false ∧
    handleHTLCExpired "1" (.error "RpcUnavailable") = none :=
  isInEscrow_error_skips_refund "1" "RpcUnavailable"

end ColdDrawer
